import Mathlib

/-!
# Verification of the content-swap payment-channel core

Shallow embedding of the `BidirectionalChannel` Solidity contract, the CLI
payment/finalize logic (`payment-manager.js`, `cli/index.js`,
`state-manager.js`) and the example `RevocationKeyManager`
(`encrypted-content-example.js`), together with proofs of the spec claims.

Hashes are modelled as a free term algebra: `Word.keccak` applied to a list
of packed fields.  Constructor injectivity is the standard symbolic model of
a collision-resistant hash.  Recoverable ECDSA signatures are modelled
symbolically: a signature carries the address it recovers to on the digest
it was produced over, and recovers to address `0` on any other digest
(the contract constructor guarantees `0` is not a participant).
Machine integers are `Nat`; Solidity 0.8 checked arithmetic reverts on
overflow, so no wrap-around is observable on any successful operation.
-/

namespace ContentSwap

mutual
/-- Symbolic 32-byte values and packed-encoding hash terms.
`keccak l` stands for `keccak256(abi.encodePacked(l))`;
`ethSigned h` stands for `MessageHashUtils.toEthSignedMessageHash(h)`
(resp. `ethers.hashMessage` on the JS side);
`raw n` is an opaque 32-byte value such as a random preimage or a seed. -/
inductive Word where
  | raw : Nat → Word
  | keccak : List PackItem → Word
  | ethSigned : Word → Word

/-- One field of an `abi.encodePacked` / `ethers.solidityPacked` argument list. -/
inductive PackItem where
  | addr : Nat → PackItem
  | uint : Nat → PackItem
  | str : String → PackItem
  | bytes32 : Word → PackItem
end

mutual
def Word.beq : Word → Word → Bool
  | .raw a, .raw b => a == b
  | .keccak a, .keccak b => PackItem.beqList a b
  | .ethSigned a, .ethSigned b => Word.beq a b
  | _, _ => false

def PackItem.beq : PackItem → PackItem → Bool
  | .addr a, .addr b => a == b
  | .uint a, .uint b => a == b
  | .str a, .str b => a == b
  | .bytes32 a, .bytes32 b => Word.beq a b
  | _, _ => false

def PackItem.beqList : List PackItem → List PackItem → Bool
  | [], [] => true
  | a :: as, b :: bs => PackItem.beq a b && PackItem.beqList as bs
  | _, _ => false
end

mutual
theorem wordBeq_iff : ∀ a b : Word, Word.beq a b = true ↔ a = b
  | .raw a, .raw b => by simp [Word.beq]
  | .raw _, .keccak _ => by simp [Word.beq]
  | .raw _, .ethSigned _ => by simp [Word.beq]
  | .keccak _, .raw _ => by simp [Word.beq]
  | .keccak a, .keccak b => by
      simp only [Word.beq, packItemBeqList_iff a b, Word.keccak.injEq]
  | .keccak _, .ethSigned _ => by simp [Word.beq]
  | .ethSigned _, .raw _ => by simp [Word.beq]
  | .ethSigned _, .keccak _ => by simp [Word.beq]
  | .ethSigned a, .ethSigned b => by
      simp only [Word.beq, wordBeq_iff a b, Word.ethSigned.injEq]

theorem packItemBeq_iff : ∀ a b : PackItem, PackItem.beq a b = true ↔ a = b
  | .addr a, .addr b => by simp [PackItem.beq]
  | .addr _, .uint _ => by simp [PackItem.beq]
  | .addr _, .str _ => by simp [PackItem.beq]
  | .addr _, .bytes32 _ => by simp [PackItem.beq]
  | .uint _, .addr _ => by simp [PackItem.beq]
  | .uint a, .uint b => by simp [PackItem.beq]
  | .uint _, .str _ => by simp [PackItem.beq]
  | .uint _, .bytes32 _ => by simp [PackItem.beq]
  | .str _, .addr _ => by simp [PackItem.beq]
  | .str _, .uint _ => by simp [PackItem.beq]
  | .str a, .str b => by simp [PackItem.beq]
  | .str _, .bytes32 _ => by simp [PackItem.beq]
  | .bytes32 _, .addr _ => by simp [PackItem.beq]
  | .bytes32 _, .uint _ => by simp [PackItem.beq]
  | .bytes32 _, .str _ => by simp [PackItem.beq]
  | .bytes32 a, .bytes32 b => by
      simp only [PackItem.beq, wordBeq_iff a b, PackItem.bytes32.injEq]

theorem packItemBeqList_iff : ∀ a b : List PackItem, PackItem.beqList a b = true ↔ a = b
  | [], [] => by simp [PackItem.beqList]
  | [], _ :: _ => by simp [PackItem.beqList]
  | _ :: _, [] => by simp [PackItem.beqList]
  | a :: as, b :: bs => by
      simp only [PackItem.beqList, Bool.and_eq_true, packItemBeq_iff a b,
        packItemBeqList_iff as bs, List.cons.injEq]
end

instance : DecidableEq Word := fun a b =>
  decidable_of_iff (Word.beq a b = true) (wordBeq_iff a b)

instance : DecidableEq PackItem := fun a b =>
  decidable_of_iff (PackItem.beq a b = true) (packItemBeq_iff a b)

/-- A recoverable signature, modelled symbolically: `signer` is the address
the signature recovers to when checked against `over`, the digest it was
produced over. -/
structure Sig where
  signer : Nat
  over : Word
deriving DecidableEq

/-- `ECDSA.recover(digest, sig)` (resp. `ethers.recoverAddress`): recovers
the signer on the digest the signature was made over, and an unpredictable
address — modelled as `0`, which is never a participant — on any other. -/
def recover (digest : Word) (s : Sig) : Nat :=
  if s.over = digest then s.signer else 0

/-- `enum State { FUNDING, OPEN, DISPUTED, CLOSED }` of `BidirectionalChannel`. -/
inductive State where
  | FUNDING
  | OPEN
  | DISPUTED
  | CLOSED
deriving DecidableEq

/-- Numeric value of a `State`, as Solidity assigns enum values (used to
express monotonicity of transitions). -/
def State.rank : State → Nat
  | .FUNDING => 0
  | .OPEN => 1
  | .DISPUTED => 2
  | .CLOSED => 3

/-- Storage of a `BidirectionalChannel` contract instance.  `addr` is
`address(this)`; `depositA`/`depositB` are `deposits[partyA]`/`deposits[partyB]`
(only participants can ever deposit); `revokedCommitments` is the set of
`bytes32` keys mapped to `true`. -/
structure Channel where
  addr : Nat
  partyA : Nat
  partyB : Nat
  fundingDeadline : Nat
  disputePeriod : Nat
  channelBalance : Nat
  channelState : State
  depositA : Nat
  depositB : Nat
  latestNonce : Nat
  revokedCommitments : List Word
  disputeDeadline : Nat
  disputeInitiator : Nat
  disputedBalanceA : Nat
  disputedBalanceB : Nat
  disputedNonce : Nat
deriving DecidableEq

/-- An outgoing ether transfer `(recipient, amount)` made by `address.call{value: _}`. -/
abbrev Transfer := Nat × Nat

/-- `require(cond, msg)`: revert with `msg` unless `cond` holds. -/
def require (cond : Bool) (msg : String) : Except String Unit :=
  if cond then .ok () else .error msg

/-- The `onlyParticipants` modifier. -/
def onlyParticipants (c : Channel) (sender : Nat) : Except String Unit :=
  require (sender == c.partyA || sender == c.partyB) "Not a participant"

/-- The `inState(_state)` modifier. -/
def inState (c : Channel) (s : State) : Except String Unit :=
  require (c.channelState == s) "Invalid state"

/-- The `BidirectionalChannel` constructor: validates the parties and
parameters and returns the initial storage (deployed at address `addr`,
at time `now = block.timestamp`). -/
def mkChannel (addr pA pB fundingDeadline disputePeriod now : Nat) :
    Except String Channel := do
  require (pA != 0 && pB != 0) "Invalid addresses"
  require (pA != pB) "Parties must be different"
  require (now < fundingDeadline) "Invalid funding deadline"
  require (0 < disputePeriod) "Invalid dispute period"
  .ok { addr := addr, partyA := pA, partyB := pB,
        fundingDeadline := fundingDeadline, disputePeriod := disputePeriod,
        channelBalance := 0, channelState := .FUNDING,
        depositA := 0, depositB := 0, latestNonce := 0,
        revokedCommitments := [], disputeDeadline := 0, disputeInitiator := 0,
        disputedBalanceA := 0, disputedBalanceB := 0, disputedNonce := 0 }

/-- `fundChannel()`: `msg.sender = sender`, `msg.value = value`,
`block.timestamp = now`. -/
def fundChannel (c : Channel) (sender value now : Nat) : Except String Channel := do
  onlyParticipants c sender
  inState c .FUNDING
  require (now ≤ c.fundingDeadline) "Funding deadline passed"
  require (0 < value) "Must send funds"
  .ok { c with
        depositA := if sender = c.partyA then c.depositA + value else c.depositA,
        depositB := if sender = c.partyA then c.depositB else c.depositB + value,
        channelBalance := c.channelBalance + value }

/-- `openChannel()`. -/
def openChannel (c : Channel) (sender : Nat) : Except String Channel := do
  onlyParticipants c sender
  inState c .FUNDING
  require (0 < c.depositA && 0 < c.depositB) "Both parties must fund"
  .ok { c with channelState := .OPEN }

/-- `refundDeposits()`. -/
def refundDeposits (c : Channel) (now : Nat) :
    Except String (Channel × List Transfer) := do
  inState c .FUNDING
  require (c.fundingDeadline < now) "Funding period not over"
  let refundA := c.depositA
  let refundB := c.depositB
  let c := { c with depositA := 0, depositB := 0, channelBalance := 0,
                    channelState := .CLOSED }
  .ok (c, (if 0 < refundA then [(c.partyA, refundA)] else []) ++
          (if 0 < refundB then [(c.partyB, refundB)] else []))

/-- `submitRevocation(commitmentHash, revocationSecret)`. -/
def submitRevocation (c : Channel) (sender : Nat)
    (commitmentHash revocationSecret : Word) : Except String Channel := do
  onlyParticipants c sender
  inState c .OPEN
  let secretHash := Word.keccak [.bytes32 revocationSecret]
  require (secretHash == commitmentHash) "Invalid revocation secret"
  .ok { c with revokedCommitments := commitmentHash :: c.revokedCommitments }

/-- The commitment hash
`keccak256(abi.encodePacked(address(this), nonce, balanceA, balanceB))`
as computed in `initiateDispute` and `challengeDispute`. -/
def commitmentHashOf (c : Channel) (nonce balanceA balanceB : Nat) : Word :=
  Word.keccak [.addr c.addr, .uint nonce, .uint balanceA, .uint balanceB]

/-- `_applyPenalty(cheater)`: closes the channel and transfers the whole
balance to the other participant. -/
def applyPenalty (c : Channel) (cheater : Nat) : Channel × List Transfer :=
  let honestParty := if cheater = c.partyA then c.partyB else c.partyA
  ({ c with channelState := .CLOSED }, [(honestParty, c.channelBalance)])

/-- `initiateDispute(nonce, balanceA, balanceB, signatureA, signatureB)`. -/
def initiateDispute (c : Channel) (sender : Nat) (nonce balanceA balanceB : Nat)
    (signatureA signatureB : Sig) (now : Nat) :
    Except String (Channel × List Transfer) := do
  onlyParticipants c sender
  inState c .OPEN
  require (balanceA + balanceB == c.channelBalance) "Invalid balances"
  let commitmentHash := commitmentHashOf c nonce balanceA balanceB
  let ethSignedMessageHash := Word.ethSigned commitmentHash
  let signerA := recover ethSignedMessageHash signatureA
  let signerB := recover ethSignedMessageHash signatureB
  require (signerA == c.partyA) "Invalid signature from A"
  require (signerB == c.partyB) "Invalid signature from B"
  let revocationHash := Word.keccak [.bytes32 commitmentHash]
  if revocationHash ∈ c.revokedCommitments then
    .ok (applyPenalty c sender)
  else
    .ok ({ c with channelState := .DISPUTED,
                  disputeDeadline := now + c.disputePeriod,
                  disputeInitiator := sender,
                  disputedBalanceA := balanceA,
                  disputedBalanceB := balanceB,
                  disputedNonce := nonce }, [])

/-- `challengeDispute(nonce, balanceA, balanceB, signatureA, signatureB)`. -/
def challengeDispute (c : Channel) (sender : Nat) (nonce balanceA balanceB : Nat)
    (signatureA signatureB : Sig) (now : Nat) : Except String Channel := do
  onlyParticipants c sender
  inState c .DISPUTED
  require (c.disputedNonce < nonce) "Must provide newer commitment"
  require (balanceA + balanceB == c.channelBalance) "Invalid balances"
  let commitmentHash := commitmentHashOf c nonce balanceA balanceB
  let ethSignedMessageHash := Word.ethSigned commitmentHash
  let signerA := recover ethSignedMessageHash signatureA
  let signerB := recover ethSignedMessageHash signatureB
  require (signerA == c.partyA) "Invalid signature from A"
  require (signerB == c.partyB) "Invalid signature from B"
  .ok { c with disputedBalanceA := balanceA,
               disputedBalanceB := balanceB,
               disputedNonce := nonce,
               disputeInitiator := sender,
               disputeDeadline := now + c.disputePeriod }

/-- `proveRevocationBreach(revocationSecret)`. -/
def proveRevocationBreach (c : Channel) (sender : Nat) (revocationSecret : Word) :
    Except String (Channel × List Transfer) := do
  onlyParticipants c sender
  inState c .DISPUTED
  let commitmentHash :=
    commitmentHashOf c c.disputedNonce c.disputedBalanceA c.disputedBalanceB
  let secretHash := Word.keccak [.bytes32 revocationSecret]
  let revocationHash := Word.keccak [.bytes32 commitmentHash]
  require (secretHash == revocationHash) "Invalid revocation proof"
  .ok (applyPenalty c c.disputeInitiator)

/-- `finalizeDispute()`. -/
def finalizeDispute (c : Channel) (now : Nat) :
    Except String (Channel × List Transfer) := do
  inState c .DISPUTED
  require (c.disputeDeadline ≤ now) "Dispute period not over"
  let c := { c with channelState := .CLOSED }
  .ok (c, (if 0 < c.disputedBalanceA then [(c.partyA, c.disputedBalanceA)] else []) ++
          (if 0 < c.disputedBalanceB then [(c.partyB, c.disputedBalanceB)] else []))

/-- `cooperativeClose(balanceA, balanceB, signatureA, signatureB)`. -/
def cooperativeClose (c : Channel) (sender : Nat) (balanceA balanceB : Nat)
    (signatureA signatureB : Sig) : Except String (Channel × List Transfer) := do
  onlyParticipants c sender
  inState c .OPEN
  require (balanceA + balanceB == c.channelBalance) "Invalid balances"
  let closeHash :=
    Word.keccak [.str "CLOSE", .addr c.addr, .uint balanceA, .uint balanceB]
  let ethSignedCloseHash := Word.ethSigned closeHash
  let signerA := recover ethSignedCloseHash signatureA
  let signerB := recover ethSignedCloseHash signatureB
  require (signerA == c.partyA) "Invalid signature from A"
  require (signerB == c.partyB) "Invalid signature from B"
  let c := { c with channelState := .CLOSED }
  .ok (c, (if 0 < balanceA then [(c.partyA, balanceA)] else []) ++
          (if 0 < balanceB then [(c.partyB, balanceB)] else []))

/-- A sequence of `fundChannel` calls applied in order; each triple is
`(msg.sender, msg.value, block.timestamp)`. -/
def fundMany (c : Channel) : List (Nat × Nat × Nat) → Except String Channel
  | [] => .ok c
  | (sender, value, now) :: rest => do
      let c' ← fundChannel c sender value now
      fundMany c' rest

/-- One successful invocation of any external state-mutating operation of
`BidirectionalChannel` (the view function `getChannelInfo` mutates nothing). -/
inductive ChannelStep : Channel → Channel → Prop where
  | fund (c c' : Channel) (s v t : Nat) :
      fundChannel c s v t = .ok c' → ChannelStep c c'
  | openCh (c c' : Channel) (s : Nat) :
      openChannel c s = .ok c' → ChannelStep c c'
  | refund (c c' : Channel) (t : Nat) (outs : List Transfer) :
      refundDeposits c t = .ok (c', outs) → ChannelStep c c'
  | submitRev (c c' : Channel) (s : Nat) (h sec : Word) :
      submitRevocation c s h sec = .ok c' → ChannelStep c c'
  | initiate (c c' : Channel) (s n a b t : Nat) (sA sB : Sig) (outs : List Transfer) :
      initiateDispute c s n a b sA sB t = .ok (c', outs) → ChannelStep c c'
  | challenge (c c' : Channel) (s n a b t : Nat) (sA sB : Sig) :
      challengeDispute c s n a b sA sB t = .ok c' → ChannelStep c c'
  | breach (c c' : Channel) (s : Nat) (sec : Word) (outs : List Transfer) :
      proveRevocationBreach c s sec = .ok (c', outs) → ChannelStep c c'
  | finalize (c c' : Channel) (t : Nat) (outs : List Transfer) :
      finalizeDispute c t = .ok (c', outs) → ChannelStep c c'
  | coopClose (c c' : Channel) (s a b : Nat) (sA sB : Sig) (outs : List Transfer) :
      cooperativeClose c s a b sA sB = .ok (c', outs) → ChannelStep c c'

/-! ## CLI payment manager (`src/cli/lib/payment-manager.js`) -/

/-- The record returned by `PaymentManager.createCommitment` (the JS object's
`timestamp` field is wall-clock presentation data and is not modelled). -/
structure CliCommitment where
  nonce : Nat
  balanceA : Nat
  balanceB : Nat
  hash : Word
  signature : Sig
  revocationPreimage : Word
  revocationHash : Word
deriving DecidableEq

/-- `PaymentManager.createCommitment(channelAddress, nonce, paymentAmount,
currentBalanceA, currentBalanceB)`.  Amounts are in the integer unit
(`parseEther` output).  `signerAddr` is the wallet's address and
`revocationPreimage` stands for the `crypto.randomBytes(32)` draw, both
supplied explicitly since the embedding is pure. -/
def createCommitment (signerAddr channelAddress nonce paymentAmount
    currentBalanceA currentBalanceB : Nat) (revocationPreimage : Word) :
    Except String CliCommitment := do
  require (paymentAmount ≤ currentBalanceA) "Insufficient balance for payment"
  let newBalanceA := currentBalanceA - paymentAmount
  let newBalanceB := currentBalanceB + paymentAmount
  let commitmentHash := Word.keccak
    [.addr channelAddress, .uint nonce, .uint newBalanceA, .uint newBalanceB]
  .ok { nonce := nonce, balanceA := newBalanceA, balanceB := newBalanceB,
        hash := commitmentHash,
        signature := { signer := signerAddr, over := .ethSigned commitmentHash },
        revocationPreimage := revocationPreimage,
        revocationHash := Word.keccak [.bytes32 revocationPreimage] }

/-! ## Content-delivery example (`src/examples/encrypted-content-example.js`) -/

/-- The commitment hash computed by `createAndSignCommitmentVerbose`: unlike
the CLI variant it packs both parties' revocation hashes into the signed
payload. -/
def exampleCommitmentHash (channelAddress nonce balanceA balanceB : Nat)
    (revHashA revHashB : Word) : Word :=
  Word.keccak [.addr channelAddress, .uint nonce, .uint balanceA,
               .uint balanceB, .bytes32 revHashA, .bytes32 revHashB]

/-- Association-list update used to model a JS `Map.set`. -/
def assocSet (l : List (Nat × Word)) (k : Nat) (v : Word) : List (Nat × Word) :=
  if l.any (fun p => p.1 == k) then
    l.map (fun p => if p.1 == k then (k, v) else p)
  else l ++ [(k, v)]

/-- Association-list removal used to model a JS `Map.delete`. -/
def assocRemove (l : List (Nat × Word)) (k : Nat) : List (Nat × Word) :=
  l.filter (fun p => p.1 != k)

/-- Association-list read used to model a JS `Map.get`. -/
def assocGet (l : List (Nat × Word)) (k : Nat) : Option Word :=
  (l.find? (fun p => p.1 == k)).map (·.2)

/-- The `RevocationKeyManager` of the content-delivery example: a seed plus
the `secrets` (held) and `revealedSecrets` maps. -/
structure RevocationKeyManager where
  seed : Word
  secrets : List (Nat × Word)
  revealedSecrets : List (Nat × Word)
deriving DecidableEq

namespace RevocationKeyManager

/-- `new RevocationKeyManager(seed)`. -/
def mk' (seed : Word) : RevocationKeyManager :=
  { seed := seed, secrets := [], revealedSecrets := [] }

/-- `generateSecret(nonce)`:
`keccak256(solidityPacked(['bytes32','uint256'], [seed, nonce]))`, stored in
the `secrets` map. -/
def generateSecret (m : RevocationKeyManager) (nonce : Nat) :
    Word × RevocationKeyManager :=
  let secret := Word.keccak [.bytes32 m.seed, .uint nonce]
  (secret, { m with secrets := assocSet m.secrets nonce secret })

/-- `generateRevocationHash(nonce)`: regenerates the secret and hashes it. -/
def generateRevocationHash (m : RevocationKeyManager) (nonce : Nat) :
    Word × RevocationKeyManager :=
  let (secret, m) := m.generateSecret nonce
  (Word.keccak [.bytes32 secret], m)

/-- `revealSecret(nonce)`: throws when the `secrets` map has no entry for
`nonce`; otherwise moves the secret to `revealedSecrets` and deletes it from
`secrets`. -/
def revealSecret (m : RevocationKeyManager) (nonce : Nat) :
    Except String (Word × RevocationKeyManager) :=
  match assocGet m.secrets nonce with
  | none => .error "No secret found for nonce"
  | some secret =>
      .ok (secret, { m with
        revealedSecrets := assocSet m.revealedSecrets nonce secret,
        secrets := assocRemove m.secrets nonce })

end RevocationKeyManager

/-! ## CLI commitment store and finalize step
(`src/cli/lib/state-manager.js`, `finalize-commitment` in `src/cli/index.js`) -/

/-- A commitment record in the CLI's per-channel `commitments.json` array. -/
structure StoredCommitment where
  nonce : Nat
  hash : Word
  counterpartyRevocationHash : Option Word := none
  revocationPreimage : Option Word := none
  counterpartySignature : Option Sig := none
  counterpartySigner : Option Nat := none
  revoked : Bool := false
  revocationSecret : Option Word := none
  revokedAt : Option Nat := none
deriving DecidableEq

/-- `StateManager.markCommitmentRevoked(channel, nonce, secret)` restricted to
one channel's array: sets `revoked`, `revocationSecret` and `revokedAt` on the
first record with that nonce (nonces are unique in the store). -/
def markCommitmentRevoked (cs : List StoredCommitment) (nonce : Nat)
    (secret : Word) (now : Nat) : List StoredCommitment :=
  match cs with
  | [] => []
  | cm :: rest =>
      if cm.nonce = nonce then
        { cm with revoked := true, revocationSecret := some secret,
                  revokedAt := some now } :: rest
      else cm :: markCommitmentRevoked rest nonce secret now

/-- Replace the first record with the given nonce (the
`commitments[index] = existing` write-back in `finalize-commitment`). -/
def replaceCommitment (cs : List StoredCommitment) (nonce : Nat)
    (updated : StoredCommitment) : List StoredCommitment :=
  match cs with
  | [] => []
  | cm :: rest =>
      if cm.nonce = nonce then updated :: rest
      else cm :: replaceCommitment rest nonce updated

/-- The countersigned response consumed by the CLI `finalize-commitment`
command (required fields only; optional fields are `Option`). -/
structure SignedResponse where
  channelAddress : Nat
  nonce : Nat
  hash : Word
  counterpartySignature : Sig
  counterpartyRevocationHash : Option Word := none
  previousRevocationSecret : Option Word := none
deriving DecidableEq

/-- The `finalize-commitment` action of `src/cli/index.js` restricted to one
channel's commitment array.  Returns the updated store and the local party's
previous-nonce revocation secret revealed for transmission (if any).
Console logging is not modelled; note that a failed verification of
`previousRevocationSecret` is only reported, not raised — processing
continues. -/
def finalizeCommitment (cs : List StoredCommitment) (signed : SignedResponse)
    (now : Nat) : Except String (List StoredCommitment × Option Word) := do
  let recoveredAddress := recover (Word.ethSigned signed.hash) signed.counterpartySignature
  match cs.find? (fun c => c.nonce == signed.nonce) with
  | none => .error "Commitment not found locally"
  | some existing =>
    let previousNonce := signed.nonce - 1
    let cs1 :=
      match signed.previousRevocationSecret with
      | some secret =>
          if 1 ≤ previousNonce then
            match cs.find? (fun c => c.nonce == previousNonce) with
            | some prev =>
                match prev.counterpartyRevocationHash with
                | some storedHash =>
                    if Word.keccak [.bytes32 secret] = storedHash then
                      markCommitmentRevoked cs previousNonce secret now
                    else cs
                | none => cs
            | none => cs
          else cs
      | none => cs
    let updated := { existing with
      counterpartySignature := some signed.counterpartySignature,
      counterpartySigner := some recoveredAddress,
      counterpartyRevocationHash :=
        match signed.counterpartyRevocationHash with
        | some h => some h
        | none => existing.counterpartyRevocationHash }
    let cs2 := replaceCommitment cs1 signed.nonce updated
    let (cs3, myPreviousSecret) :=
      if 1 ≤ previousNonce then
        match cs2.find? (fun c => c.nonce == previousNonce) with
        | some myPrev =>
            match myPrev.revocationPreimage with
            | some pre => (markCommitmentRevoked cs2 previousNonce pre now, some pre)
            | none => (cs2, (none : Option Word))
        | none => (cs2, none)
      else (cs2, none)
    .ok (cs3, myPreviousSecret)

/-! ## Concrete instances used as witnesses and counterexamples -/

/-- Commitment digest for (channel 10, nonce 1, balances 5/6). -/
def sampleCommitmentHash : Word := Word.keccak [.addr 10, .uint 1, .uint 5, .uint 6]

/-- An OPEN channel (parties 1 and 2, balance 11) whose nonce-1 commitment
has had its revocation proof published on-chain. -/
def sampleOpen : Channel :=
  { addr := 10, partyA := 1, partyB := 2, fundingDeadline := 100,
    disputePeriod := 50, channelBalance := 11, channelState := .OPEN,
    depositA := 6, depositB := 5, latestNonce := 0,
    revokedCommitments := [Word.keccak [.bytes32 sampleCommitmentHash]],
    disputeDeadline := 0, disputeInitiator := 0, disputedBalanceA := 0,
    disputedBalanceB := 0, disputedNonce := 0 }

/-- A DISPUTED channel (initiator 1, disputed nonce 3, balances 5/6). -/
def sampleDisputed : Channel :=
  { sampleOpen with
    channelState := .DISPUTED, revokedCommitments := [],
    disputeDeadline := 200, disputeInitiator := 1,
    disputedBalanceA := 5, disputedBalanceB := 6, disputedNonce := 3 }

/-- A FUNDING channel where only party A has deposited. -/
def sampleFunding : Channel :=
  { sampleOpen with
    channelState := .FUNDING, depositA := 5, depositB := 0,
    channelBalance := 5, revokedCommitments := [] }

/-- Stored nonce-1 commitment holding the counterparty's revocation hash
(the hash of `raw 50`), with no local preimage recorded. -/
def c7storedPrev : StoredCommitment :=
  { nonce := 1, hash := Word.raw 100,
    counterpartyRevocationHash := some (Word.keccak [.bytes32 (Word.raw 50)]) }

/-- Stored nonce-2 commitment awaiting the counterparty's signature. -/
def c7storedCur : StoredCommitment := { nonce := 2, hash := Word.raw 101 }

/-- A countersigned response for nonce 2 whose previous-nonce revocation
secret (`raw 51`) does not hash to the stored hash of `raw 50`. -/
def c7response : SignedResponse :=
  { channelAddress := 10, nonce := 2, hash := Word.raw 101,
    counterpartySignature := { signer := 2, over := Word.ethSigned (Word.raw 101) },
    counterpartyRevocationHash := some (Word.raw 60),
    previousRevocationSecret := some (Word.raw 51) }

/-- The record `createCommitment 1 10 1 2 7 4 r` evaluates to: a payment of
2 out of balances 7/4, hashed without the revocation data. -/
def cliCm (r : Word) : CliCommitment :=
  { nonce := 1, balanceA := 5, balanceB := 6,
    hash := Word.keccak [.addr 10, .uint 1, .uint 5, .uint 6],
    signature := { signer := 1,
                   over := .ethSigned (Word.keccak [.addr 10, .uint 1, .uint 5, .uint 6]) },
    revocationPreimage := r,
    revocationHash := Word.keccak [.bytes32 r] }

/-- Freshly constructed channel (parties 1 and 2, deadline 100, period 50). -/
def c9start : Channel :=
  { addr := 10, partyA := 1, partyB := 2, fundingDeadline := 100,
    disputePeriod := 50, channelBalance := 0, channelState := .FUNDING,
    depositA := 0, depositB := 0, latestNonce := 0, revokedCommitments := [],
    disputeDeadline := 0, disputeInitiator := 0, disputedBalanceA := 0,
    disputedBalanceB := 0, disputedNonce := 0 }

/-- `c9start` after party 1 deposits 6 and party 2 deposits 5. -/
def c9final : Channel :=
  { c9start with depositA := 6, depositB := 5, channelBalance := 11 }

/-- A key manager that generated a secret for nonce 5. -/
def c10manager : RevocationKeyManager :=
  ((RevocationKeyManager.mk' (Word.raw 7)).generateSecret 5).2

/-- The deterministic secret `c10manager` holds for nonce 5. -/
def c10secret : Word := Word.keccak [.bytes32 (Word.raw 7), .uint 5]

/-! ## Helper lemmas -/

theorem require_bind_ok {α : Type} {cond : Bool} {msg : String}
    {f : Unit → Except String α} {x : α} :
    (require cond msg >>= f) = .ok x ↔ cond = true ∧ f () = .ok x := by
  cases cond <;> simp [require, bind, Except.bind]

theorem bind_require_of_true {α : Type} {cond : Bool} {msg : String}
    {f : Unit → Except String α} (h : cond = true) :
    (require cond msg >>= f) = f () := by
  subst h; simp [require, bind, Except.bind]

theorem bind_require_of_false {α : Type} {cond : Bool} {msg : String}
    {f : Unit → Except String α} (h : cond = false) :
    (require cond msg >>= f) = .error msg := by
  subst h; simp [require, bind, Except.bind]

theorem fundChannel_ok {c c' : Channel} {s v t : Nat}
    (h : fundChannel c s v t = .ok c') :
    c.channelState = .FUNDING ∧
    c' = { c with
      depositA := if s = c.partyA then c.depositA + v else c.depositA,
      depositB := if s = c.partyA then c.depositB else c.depositB + v,
      channelBalance := c.channelBalance + v } := by
  simp only [fundChannel, onlyParticipants, inState, require_bind_ok,
    Bool.or_eq_true, beq_iff_eq, decide_eq_true_eq, Except.ok.injEq] at h
  obtain ⟨hp, hst, ht, hv, hc⟩ := h
  exact ⟨hst, hc.symm⟩

theorem openChannel_ok {c c' : Channel} {s : Nat}
    (h : openChannel c s = .ok c') :
    c.channelState = .FUNDING ∧ c' = { c with channelState := .OPEN } := by
  simp only [openChannel, onlyParticipants, inState, require_bind_ok,
    Bool.or_eq_true, Bool.and_eq_true, beq_iff_eq, decide_eq_true_eq,
    Except.ok.injEq] at h
  obtain ⟨hp, hst, hd, hc⟩ := h
  exact ⟨hst, hc.symm⟩

theorem refundDeposits_ok {c c' : Channel} {t : Nat} {outs : List Transfer}
    (h : refundDeposits c t = .ok (c', outs)) :
    c.channelState = .FUNDING ∧ c'.channelState = .CLOSED := by
  simp only [refundDeposits, inState, require_bind_ok, beq_iff_eq,
    decide_eq_true_eq, Except.ok.injEq, Prod.mk.injEq] at h
  obtain ⟨hst, ht, hc, houts⟩ := h
  exact ⟨hst, by rw [← hc]⟩

theorem submitRevocation_ok {c c' : Channel} {s : Nat} {hsh sec : Word}
    (h : submitRevocation c s hsh sec = .ok c') :
    c.channelState = .OPEN ∧
    c' = { c with revokedCommitments := hsh :: c.revokedCommitments } ∧
    Word.keccak [.bytes32 sec] = hsh := by
  simp only [submitRevocation, onlyParticipants, inState, require_bind_ok,
    Bool.or_eq_true, beq_iff_eq, decide_eq_true_eq, Except.ok.injEq] at h
  obtain ⟨hp, hst, hsec, hc⟩ := h
  exact ⟨hst, hc.symm, hsec⟩

theorem initiateDispute_ok {c c' : Channel} {s n a b t : Nat} {sA sB : Sig}
    {outs : List Transfer}
    (h : initiateDispute c s n a b sA sB t = .ok (c', outs)) :
    c.channelState = .OPEN ∧
    (c'.channelState = .CLOSED ∨ c'.channelState = .DISPUTED) := by
  simp only [initiateDispute, onlyParticipants, inState, require_bind_ok,
    Bool.or_eq_true, beq_iff_eq, decide_eq_true_eq] at h
  obtain ⟨hp, hst, hbal, hsA, hsB, htail⟩ := h
  refine ⟨hst, ?_⟩
  split at htail
  · simp only [applyPenalty, Except.ok.injEq, Prod.mk.injEq] at htail
    exact .inl (by rw [← htail.1])
  · simp only [Except.ok.injEq, Prod.mk.injEq] at htail
    exact .inr (by rw [← htail.1])

theorem challengeDispute_ok {c c' : Channel} {s n a b t : Nat} {sA sB : Sig}
    (h : challengeDispute c s n a b sA sB t = .ok c') :
    c.channelState = .DISPUTED ∧
    c' = { c with disputedBalanceA := a, disputedBalanceB := b,
                  disputedNonce := n, disputeInitiator := s,
                  disputeDeadline := t + c.disputePeriod } ∧
    (s = c.partyA ∨ s = c.partyB) ∧ c.disputedNonce < n := by
  simp only [challengeDispute, onlyParticipants, inState, require_bind_ok,
    Bool.or_eq_true, beq_iff_eq, decide_eq_true_eq, Except.ok.injEq] at h
  obtain ⟨hp, hst, hn, hbal, hsA, hsB, hc⟩ := h
  exact ⟨hst, hc.symm, hp, hn⟩

theorem proveRevocationBreach_ok {c c' : Channel} {s : Nat} {sec : Word}
    {outs : List Transfer}
    (h : proveRevocationBreach c s sec = .ok (c', outs)) :
    c.channelState = .DISPUTED ∧
    c' = { c with channelState := .CLOSED } ∧
    outs = [(if c.disputeInitiator = c.partyA then c.partyB else c.partyA,
             c.channelBalance)] := by
  simp only [proveRevocationBreach, onlyParticipants, inState, require_bind_ok,
    Bool.or_eq_true, beq_iff_eq, decide_eq_true_eq, applyPenalty,
    Except.ok.injEq, Prod.mk.injEq] at h
  obtain ⟨hp, hst, hsec, hc, houts⟩ := h
  exact ⟨hst, hc.symm, houts.symm⟩

theorem finalizeDispute_ok {c c' : Channel} {t : Nat} {outs : List Transfer}
    (h : finalizeDispute c t = .ok (c', outs)) :
    c.channelState = .DISPUTED ∧ c'.channelState = .CLOSED := by
  simp only [finalizeDispute, inState, require_bind_ok, beq_iff_eq,
    decide_eq_true_eq, Except.ok.injEq, Prod.mk.injEq] at h
  obtain ⟨hst, ht, hc, houts⟩ := h
  exact ⟨hst, by rw [← hc]⟩

theorem cooperativeClose_ok {c c' : Channel} {s a b : Nat} {sA sB : Sig}
    {outs : List Transfer}
    (h : cooperativeClose c s a b sA sB = .ok (c', outs)) :
    c.channelState = .OPEN ∧ c'.channelState = .CLOSED := by
  simp only [cooperativeClose, onlyParticipants, inState, require_bind_ok,
    Bool.or_eq_true, beq_iff_eq, decide_eq_true_eq, Except.ok.injEq,
    Prod.mk.injEq] at h
  obtain ⟨hp, hst, hbal, hsA, hsB, hc, houts⟩ := h
  exact ⟨hst, by rw [← hc]⟩

theorem mkChannel_ok {a pA pB fd dp t0 : Nat} {c : Channel}
    (h : mkChannel a pA pB fd dp t0 = .ok c) :
    c.depositA = 0 ∧ c.depositB = 0 ∧ c.channelBalance = 0 := by
  simp only [mkChannel, require_bind_ok, Bool.and_eq_true, bne_iff_ne,
    decide_eq_true_eq, Except.ok.injEq] at h
  obtain ⟨h1, h2, h3, h4, hc⟩ := h
  rw [← hc]
  exact ⟨rfl, rfl, rfl⟩

theorem fundMany_preserves_sum {ops : List (Nat × Nat × Nat)} {c c' : Channel}
    (hinv : c.depositA + c.depositB = c.channelBalance)
    (h : fundMany c ops = .ok c') :
    c'.depositA + c'.depositB = c'.channelBalance := by
  induction ops generalizing c with
  | nil =>
    simp only [fundMany, Except.ok.injEq] at h
    rw [← h]; exact hinv
  | cons op rest ih =>
    obtain ⟨s, v, t⟩ := op
    simp only [fundMany] at h
    cases heq : fundChannel c s v t with
    | error e => rw [heq] at h; simp [bind, Except.bind] at h
    | ok c1 =>
      rw [heq] at h
      simp only [bind, Except.bind] at h
      obtain ⟨hst, hc1⟩ := fundChannel_ok heq
      refine ih ?_ h
      subst hc1
      by_cases hs : s = c.partyA <;> simp [hs] <;> omega

theorem assocGet_assocRemove (l : List (Nat × Word)) (k : Nat) :
    assocGet (assocRemove l k) k = none := by
  induction l with
  | nil => rfl
  | cons p rest ih =>
    by_cases h : p.1 = k <;>
      simp [assocRemove, assocGet, List.find?_cons, h] at ih ⊢

/-! ## Claim theorems -/

/-- C1: in OPEN state, for a commitment whose revocation hash is in the
revoked set, `initiateDispute` with valid signatures from both parties always
applies the penalty — the whole channel balance goes to the party other than
the submitter and the channel is CLOSED — and never leaves the channel
DISPUTED. -/
theorem initiateDispute_revoked_always_penalty
    (c : Channel) (sender nonce balanceA balanceB now : Nat) (sigA sigB : Sig)
    (hpart : sender = c.partyA ∨ sender = c.partyB)
    (hstate : c.channelState = .OPEN)
    (hbal : balanceA + balanceB = c.channelBalance)
    (hsigA : recover (.ethSigned (commitmentHashOf c nonce balanceA balanceB)) sigA = c.partyA)
    (hsigB : recover (.ethSigned (commitmentHashOf c nonce balanceA balanceB)) sigB = c.partyB)
    (hrev : Word.keccak [.bytes32 (commitmentHashOf c nonce balanceA balanceB)]
              ∈ c.revokedCommitments) :
    initiateDispute c sender nonce balanceA balanceB sigA sigB now =
      .ok ({ c with channelState := .CLOSED },
        [(if sender = c.partyA then c.partyB else c.partyA, c.channelBalance)]) ∧
    ∀ c' outs,
      initiateDispute c sender nonce balanceA balanceB sigA sigB now = .ok (c', outs) →
      c'.channelState ≠ .DISPUTED := by
  have hmain : initiateDispute c sender nonce balanceA balanceB sigA sigB now =
      .ok ({ c with channelState := .CLOSED },
        [(if sender = c.partyA then c.partyB else c.partyA, c.channelBalance)]) := by
    simp only [initiateDispute, onlyParticipants, inState]
    rw [bind_require_of_true (by rcases hpart with hp | hp <;> simp [hp]),
        bind_require_of_true (by simp [hstate]),
        bind_require_of_true (by simp [hbal]),
        bind_require_of_true (by simp [hsigA]),
        bind_require_of_true (by simp [hsigB]),
        if_pos hrev]
    simp [applyPenalty]
  refine ⟨hmain, fun c' outs h => ?_⟩
  rw [hmain] at h
  simp only [Except.ok.injEq, Prod.mk.injEq] at h
  rw [← h.1]
  simp

/-- Witness for C1 at a concrete channel: party 1 submits the revoked
nonce-1 commitment and forfeits the whole balance to party 2. -/
theorem initiateDispute_revoked_always_penalty_witness :
    initiateDispute sampleOpen 1 1 5 6
      { signer := 1, over := .ethSigned (commitmentHashOf sampleOpen 1 5 6) }
      { signer := 2, over := .ethSigned (commitmentHashOf sampleOpen 1 5 6) } 30 =
      .ok ({ sampleOpen with channelState := .CLOSED }, [(2, 11)]) := by
  have h := (initiateDispute_revoked_always_penalty sampleOpen 1 1 5 6 30
    { signer := 1, over := .ethSigned (commitmentHashOf sampleOpen 1 5 6) }
    { signer := 2, over := .ethSigned (commitmentHashOf sampleOpen 1 5 6) }
    (.inl rfl) rfl (by decide) (by decide) (by decide)
    (by decide)).1
  simpa [sampleOpen] using h

/-- C2: in DISPUTED state, `challengeDispute` with a nonce at most the
disputed nonce is always rejected; with a strictly greater nonce, balances
summing to the channel balance and valid signatures from both parties it
replaces the disputed nonce and balances and resets the deadline to
`now + disputePeriod`. -/
theorem challengeDispute_supersession
    (c : Channel) (sender nonce balanceA balanceB now : Nat) (sigA sigB : Sig) :
    (c.channelState = .DISPUTED → nonce ≤ c.disputedNonce →
      ∃ e, challengeDispute c sender nonce balanceA balanceB sigA sigB now = .error e) ∧
    (c.channelState = .DISPUTED → (sender = c.partyA ∨ sender = c.partyB) →
      c.disputedNonce < nonce → balanceA + balanceB = c.channelBalance →
      recover (.ethSigned (commitmentHashOf c nonce balanceA balanceB)) sigA = c.partyA →
      recover (.ethSigned (commitmentHashOf c nonce balanceA balanceB)) sigB = c.partyB →
      challengeDispute c sender nonce balanceA balanceB sigA sigB now =
        .ok { c with disputedBalanceA := balanceA, disputedBalanceB := balanceB,
                     disputedNonce := nonce, disputeInitiator := sender,
                     disputeDeadline := now + c.disputePeriod }) := by
  constructor
  · intro hstate hnonce
    by_cases hp : (sender == c.partyA || sender == c.partyB) = true
    · refine ⟨"Must provide newer commitment", ?_⟩
      simp only [challengeDispute, onlyParticipants, inState]
      rw [bind_require_of_true hp, bind_require_of_true (by simp [hstate]),
          bind_require_of_false (by simp [Nat.not_lt.mpr hnonce])]
    · refine ⟨"Not a participant", ?_⟩
      simp only [challengeDispute, onlyParticipants, inState]
      rw [bind_require_of_false (by simpa using hp)]
  · intro hstate hpart hnonce hbal hsigA hsigB
    simp only [challengeDispute, onlyParticipants, inState]
    rw [bind_require_of_true (by rcases hpart with hp | hp <;> simp [hp]),
        bind_require_of_true (by simp [hstate]),
        bind_require_of_true (by simp [hnonce]),
        bind_require_of_true (by simp [hbal]),
        bind_require_of_true (by simp [hsigA]),
        bind_require_of_true (by simp [hsigB])]

/-- Witness for C2 at a concrete channel: nonce 3 (= disputed nonce) is
rejected, nonce 4 with valid signatures replaces the dispute state. -/
theorem challengeDispute_supersession_witness :
    (∃ e, challengeDispute sampleDisputed 2 3 5 6
        { signer := 1, over := .ethSigned (commitmentHashOf sampleDisputed 3 5 6) }
        { signer := 2, over := .ethSigned (commitmentHashOf sampleDisputed 3 5 6) } 60 =
        .error e) ∧
    challengeDispute sampleDisputed 2 4 4 7
        { signer := 1, over := .ethSigned (commitmentHashOf sampleDisputed 4 4 7) }
        { signer := 2, over := .ethSigned (commitmentHashOf sampleDisputed 4 4 7) } 60 =
      .ok { sampleDisputed with disputedBalanceA := 4, disputedBalanceB := 7,
                                disputedNonce := 4, disputeInitiator := 2,
                                disputeDeadline := 110 } := by
  constructor
  · exact (challengeDispute_supersession sampleDisputed 2 3 5 6 60
      { signer := 1, over := .ethSigned (commitmentHashOf sampleDisputed 3 5 6) }
      { signer := 2, over := .ethSigned (commitmentHashOf sampleDisputed 3 5 6) }).1
      rfl (by decide)
  · have h := (challengeDispute_supersession sampleDisputed 2 4 4 7 60
      { signer := 1, over := .ethSigned (commitmentHashOf sampleDisputed 4 4 7) }
      { signer := 2, over := .ethSigned (commitmentHashOf sampleDisputed 4 4 7) }).2
      rfl (.inr rfl) (by decide) (by decide)
      (by decide) (by decide)
    simpa [sampleDisputed, sampleOpen] using h

/-- C3 counterexample: the claim says *anyone* may invoke
`proveRevocationBreach`, but the contract's `onlyParticipants` modifier
rejects a non-participant caller (address 999) even when it supplies the
correct revocation secret for the disputed commitment. -/
theorem proveRevocationBreach_nonparticipant_rejected :
    999 ≠ sampleDisputed.partyA ∧ 999 ≠ sampleDisputed.partyB ∧
    sampleDisputed.channelState = .DISPUTED ∧
    Word.keccak [.bytes32 (commitmentHashOf sampleDisputed
        sampleDisputed.disputedNonce sampleDisputed.disputedBalanceA
        sampleDisputed.disputedBalanceB)] =
      Word.keccak [.bytes32 (commitmentHashOf sampleDisputed
        sampleDisputed.disputedNonce sampleDisputed.disputedBalanceA
        sampleDisputed.disputedBalanceB)] ∧
    proveRevocationBreach sampleDisputed 999
      (commitmentHashOf sampleDisputed sampleDisputed.disputedNonce
        sampleDisputed.disputedBalanceA sampleDisputed.disputedBalanceB) =
      .error "Not a participant" := by
  exact ⟨by decide, by decide, rfl, rfl, rfl⟩

/-- C3 amended: only the two channel participants may invoke
`proveRevocationBreach`; in DISPUTED state, when a participant supplies a
secret hashing to the revocation hash of the currently disputed commitment,
the penalty is applied against `disputeInitiator` and the channel is
CLOSED. -/
theorem proveRevocationBreach_participants_penalty
    (c : Channel) (sender : Nat) (sec : Word) :
    (sender ≠ c.partyA → sender ≠ c.partyB →
      proveRevocationBreach c sender sec = .error "Not a participant") ∧
    (c.channelState = .DISPUTED → (sender = c.partyA ∨ sender = c.partyB) →
      Word.keccak [.bytes32 sec] =
        Word.keccak [.bytes32 (commitmentHashOf c c.disputedNonce
          c.disputedBalanceA c.disputedBalanceB)] →
      proveRevocationBreach c sender sec =
        .ok ({ c with channelState := .CLOSED },
          [(if c.disputeInitiator = c.partyA then c.partyB else c.partyA,
            c.channelBalance)])) := by
  constructor
  · intro hA hB
    simp only [proveRevocationBreach, onlyParticipants, inState]
    rw [bind_require_of_false (by simp [hA, hB])]
  · intro hstate hpart hsec
    simp only [proveRevocationBreach, onlyParticipants, inState]
    rw [bind_require_of_true (by rcases hpart with hp | hp <;> simp [hp]),
        bind_require_of_true (by simp [hstate]),
        bind_require_of_true (by simp [hsec])]
    simp [applyPenalty]

/-- Witness for the amended C3: party 2 proves the breach and the penalty
falls on initiator 1, closing the channel. -/
theorem proveRevocationBreach_participants_penalty_witness :
    proveRevocationBreach sampleDisputed 2
      (commitmentHashOf sampleDisputed 3 5 6) =
      .ok ({ sampleDisputed with channelState := .CLOSED }, [(2, 11)]) := by
  have h := (proveRevocationBreach_participants_penalty sampleDisputed 2
    (commitmentHashOf sampleDisputed 3 5 6)).2 rfl (.inr rfl) (by decide)
  simpa [sampleDisputed, sampleOpen] using h

/-- C4: a successful `challengeDispute` records the challenger as
`disputeInitiator`, so a later successful `proveRevocationBreach` penalizes
the most recent challenger (the whole balance goes to the party other than
the challenger), not the party who opened the dispute. -/
theorem challengeDispute_sets_initiator
    (c c' : Channel) (sender nonce balanceA balanceB now : Nat) (sigA sigB : Sig)
    (h : challengeDispute c sender nonce balanceA balanceB sigA sigB now = .ok c') :
    c'.disputeInitiator = sender ∧
    ∀ s2 sec c'' outs, proveRevocationBreach c' s2 sec = .ok (c'', outs) →
      outs = [(if sender = c'.partyA then c'.partyB else c'.partyA,
               c'.channelBalance)] := by
  obtain ⟨hst, hc, hp, hn⟩ := challengeDispute_ok h
  have hinit : c'.disputeInitiator = sender := by rw [hc]
  refine ⟨hinit, fun s2 sec c'' outs h2 => ?_⟩
  obtain ⟨hst2, hc2, houts⟩ := proveRevocationBreach_ok h2
  rw [houts, hinit]

/-- Witness for C4: after challenger 2 supersedes the dispute, a breach
proof penalizes 2 — the balance goes to party 1. -/
theorem challengeDispute_sets_initiator_witness :
    ({ sampleDisputed with
       disputedBalanceA := 4, disputedBalanceB := 7,
       disputedNonce := 4, disputeInitiator := 2,
       disputeDeadline := 110 } : Channel).disputeInitiator = 2 ∧
    ∀ s2 sec c'' outs,
      proveRevocationBreach
        { sampleDisputed with
          disputedBalanceA := 4, disputedBalanceB := 7,
          disputedNonce := 4, disputeInitiator := 2, disputeDeadline := 110 }
        s2 sec = .ok (c'', outs) →
      outs = [(1, 11)] := by
  have h := challengeDispute_sets_initiator sampleDisputed
    { sampleDisputed with
      disputedBalanceA := 4, disputedBalanceB := 7,
      disputedNonce := 4, disputeInitiator := 2, disputeDeadline := 110 }
    2 4 4 7 60
    { signer := 1, over := .ethSigned (commitmentHashOf sampleDisputed 4 4 7) }
    { signer := 2, over := .ethSigned (commitmentHashOf sampleDisputed 4 4 7) }
    (by simp only [challengeDispute, onlyParticipants, inState]
        rw [bind_require_of_true (by decide), bind_require_of_true (by decide),
            bind_require_of_true (by decide), bind_require_of_true (by decide),
            bind_require_of_true (by decide),
            bind_require_of_true (by decide)]
        rfl)
  refine ⟨h.1, fun s2 sec c'' outs h2 => ?_⟩
  have := h.2 s2 sec c'' outs h2
  simpa [sampleDisputed, sampleOpen] using this

/-- C5 counterexample: the claim says `openChannel` succeeds whenever at
least one party has deposited, but with only party A funded the contract
rejects the call ("Both parties must fund"). -/
theorem openChannel_one_sided_rejected :
    sampleFunding.channelState = .FUNDING ∧ 0 < sampleFunding.depositA ∧
    openChannel sampleFunding sampleFunding.partyA =
      .error "Both parties must fund" := by
  exact ⟨rfl, by decide, rfl⟩

/-- C5 amended: in FUNDING state a participant's `openChannel` succeeds
exactly when *both* parties have deposited, and fails with
"Both parties must fund" when either deposit is zero. -/
theorem openChannel_requires_both_deposits
    (c : Channel) (sender : Nat)
    (hstate : c.channelState = .FUNDING)
    (hpart : sender = c.partyA ∨ sender = c.partyB) :
    (0 < c.depositA → 0 < c.depositB →
      openChannel c sender = .ok { c with channelState := .OPEN }) ∧
    (c.depositA = 0 ∨ c.depositB = 0 →
      openChannel c sender = .error "Both parties must fund") := by
  constructor
  · intro hA hB
    simp only [openChannel, onlyParticipants, inState]
    rw [bind_require_of_true (by rcases hpart with hp | hp <;> simp [hp]),
        bind_require_of_true (by simp [hstate]),
        bind_require_of_true (by simp [hA, hB])]
  · intro hzero
    simp only [openChannel, onlyParticipants, inState]
    rw [bind_require_of_true (by rcases hpart with hp | hp <;> simp [hp]),
        bind_require_of_true (by simp [hstate]),
        bind_require_of_false
          (by rcases hzero with hz | hz <;> simp [hz])]

/-- Witness for the amended C5: with only party A funded the open fails;
after topping both deposits up the open succeeds. -/
theorem openChannel_requires_both_deposits_witness :
    openChannel sampleFunding 1 = .error "Both parties must fund" ∧
    openChannel { sampleFunding with depositB := 6, channelBalance := 11 } 1 =
      .ok { sampleFunding with
            depositB := 6, channelBalance := 11,
            channelState := .OPEN } := by
  constructor
  · exact (openChannel_requires_both_deposits sampleFunding 1 rfl
      (.inl rfl)).2 (.inr rfl)
  · exact (openChannel_requires_both_deposits
      { sampleFunding with depositB := 6, channelBalance := 11 } 1 rfl
      (.inl rfl)).1 (by decide) (by decide)

/-- C6 counterexample: the CLI's `createCommitment` builds its hash from
channel, nonce and balances only, so two runs differing only in the
revocation preimage (hence in the revocation hash) yield the *same*
commitment hash, refuting "changing either revocation hash alone changes
the commitment hash produced by the commitment-building function". -/
theorem createCommitment_hash_ignores_revocation :
    (createCommitment 1 10 1 2 7 4 (Word.raw 1)).toOption.map CliCommitment.hash =
      (createCommitment 1 10 1 2 7 4 (Word.raw 2)).toOption.map CliCommitment.hash ∧
    (createCommitment 1 10 1 2 7 4 (Word.raw 1)).toOption.map
        CliCommitment.revocationHash ≠
      (createCommitment 1 10 1 2 7 4 (Word.raw 2)).toOption.map
        CliCommitment.revocationHash := by
  exact ⟨rfl, by decide⟩

/-- C6 amended: both hash builders are deterministic functions of their
payloads; the content-delivery example's commitment hash (which packs the
two revocation hashes) changes whenever any single field changes; but the
CLI `createCommitment` hash does not depend on the revocation data, so only
nonce/balance/channel changes affect it. -/
theorem commitmentHash_fields (ch n a b : Nat) (rA rB : Word)
    (ch' n' a' b' : Nat) (rA' rB' : Word) :
    (exampleCommitmentHash ch n a b rA rB = exampleCommitmentHash ch' n' a' b' rA' rB' ↔
      (ch = ch' ∧ n = n' ∧ a = a' ∧ b = b' ∧ rA = rA' ∧ rB = rB')) ∧
    ∀ s p cA cB r r' cm cm',
      createCommitment s ch n p cA cB r = .ok cm →
      createCommitment s ch n p cA cB r' = .ok cm' →
      cm.hash = cm'.hash := by
  constructor
  · constructor
    · intro h
      simpa [exampleCommitmentHash] using h
    · rintro ⟨rfl, rfl, rfl, rfl, rfl, rfl⟩
      rfl
  · intro s p cA cB r r' cm cm' h1 h2
    simp only [createCommitment, require_bind_ok, decide_eq_true_eq,
      Except.ok.injEq] at h1 h2
    rw [← h1.2, ← h2.2]

/-- Witness for the amended C6: changing Bob's revocation hash changes the
example hash, while the CLI hash is identical across different revocation
preimages. -/
theorem commitmentHash_fields_witness :
    exampleCommitmentHash 10 1 5 6 (Word.raw 1) (Word.raw 2) ≠
      exampleCommitmentHash 10 1 5 6 (Word.raw 1) (Word.raw 3) ∧
    (cliCm (Word.raw 1)).hash = (cliCm (Word.raw 2)).hash := by
  constructor
  · intro h
    have := ((commitmentHash_fields 10 1 5 6 (Word.raw 1) (Word.raw 2)
      10 1 5 6 (Word.raw 1) (Word.raw 3)).1).mp h
    simp at this
  · exact (commitmentHash_fields 10 1 5 6 (Word.raw 1) (Word.raw 2)
      10 1 5 6 (Word.raw 1) (Word.raw 3)).2 1 2 7 4 (Word.raw 1) (Word.raw 2)
      (cliCm (Word.raw 1)) (cliCm (Word.raw 2)) rfl rfl

/-- C7 counterexample: with a previous-nonce secret (`raw 51`) that does not
hash to the stored counterparty revocation hash (hash of `raw 50`), the CLI
`finalize-commitment` does not fail — it returns successfully and still
updates the nonce-2 record with the counterparty's signature, while the
nonce-1 record stays unrevoked. -/
theorem finalizeCommitment_mismatch_not_failing :
    finalizeCommitment [c7storedPrev, c7storedCur] c7response 999 =
      .ok ([c7storedPrev,
        { c7storedCur with
          counterpartySignature := some c7response.counterpartySignature,
          counterpartySigner := some 2,
          counterpartyRevocationHash := some (Word.raw 60) }], none) ∧
    Word.keccak [.bytes32 (Word.raw 51)] ≠ Word.keccak [.bytes32 (Word.raw 50)] ∧
    c7storedPrev.revoked = false := by
  exact ⟨rfl, by decide, rfl⟩

/-- C7 amended: in the finalize step, the prior commitment is marked revoked
by the counterparty-secret check only when the secret hashes to the stored
`counterpartyRevocationHash`; when it does not (and the local record holds
no preimage of its own), the operation still succeeds without marking the
prior commitment revoked, and the commitment record is still updated with
the counterparty's signature. -/
theorem finalizeCommitment_mismatch_behavior
    (prev cur : StoredCommitment) (signed : SignedResponse) (now : Nat)
    (secret sh : Word)
    (hprevN : prev.nonce = 1) (hcurN : cur.nonce = 2) (hsN : signed.nonce = 2)
    (hsec : signed.previousRevocationSecret = some secret)
    (hsh : prev.counterpartyRevocationHash = some sh)
    (hpre : prev.revocationPreimage = none) :
    (Word.keccak [.bytes32 secret] ≠ sh →
      finalizeCommitment [prev, cur] signed now =
        .ok ([prev,
          { cur with
            counterpartySignature := some signed.counterpartySignature,
            counterpartySigner :=
              some (recover (Word.ethSigned signed.hash) signed.counterpartySignature),
            counterpartyRevocationHash :=
              match signed.counterpartyRevocationHash with
              | some h => some h
              | none => cur.counterpartyRevocationHash }], none)) ∧
    (Word.keccak [.bytes32 secret] = sh →
      finalizeCommitment [prev, cur] signed now =
        .ok ([{ prev with
                revoked := true, revocationSecret := some secret,
                revokedAt := some now },
          { cur with
            counterpartySignature := some signed.counterpartySignature,
            counterpartySigner :=
              some (recover (Word.ethSigned signed.hash) signed.counterpartySignature),
            counterpartyRevocationHash :=
              match signed.counterpartyRevocationHash with
              | some h => some h
              | none => cur.counterpartyRevocationHash }], none)) := by
  have hne : prev.nonce ≠ signed.nonce := by rw [hprevN, hsN]; decide
  constructor
  · intro hmiss
    simp [finalizeCommitment, List.find?_cons, hprevN, hcurN, hsN, hsec, hsh,
      hmiss, replaceCommitment, markCommitmentRevoked, hpre]
  · intro hmatch
    simp [finalizeCommitment, List.find?_cons, hprevN, hcurN, hsN, hsec, hsh,
      hmatch, replaceCommitment, markCommitmentRevoked, hpre]

/-- Witness for the amended C7: the concrete mismatching store succeeds and
leaves the prior record unrevoked; flipping to the matching secret (`raw 50`)
marks it revoked. -/
theorem finalizeCommitment_mismatch_behavior_witness :
    finalizeCommitment [c7storedPrev, c7storedCur]
        { c7response with previousRevocationSecret := some (Word.raw 50) } 999 =
      .ok ([{ c7storedPrev with
              revoked := true, revocationSecret := some (Word.raw 50),
              revokedAt := some 999 },
        { c7storedCur with
          counterpartySignature := some c7response.counterpartySignature,
          counterpartySigner := some 2,
          counterpartyRevocationHash := some (Word.raw 60) }], none) := by
  have h := (finalizeCommitment_mismatch_behavior c7storedPrev c7storedCur
    { c7response with previousRevocationSecret := some (Word.raw 50) } 999
    (Word.raw 50) (Word.keccak [.bytes32 (Word.raw 50)])
    rfl rfl rfl rfl rfl rfl).2 rfl
  simpa [c7storedPrev, c7storedCur, c7response] using h

/-- C8: every successful operation of the channel state machine moves the
state forward (or keeps it) in the order FUNDING < OPEN < DISPUTED < CLOSED,
and no operation succeeds from CLOSED (CLOSED is terminal). -/
theorem channelState_monotone (c c' : Channel) (h : ChannelStep c c') :
    c.channelState.rank ≤ c'.channelState.rank ∧ c.channelState ≠ .CLOSED := by
  cases h with
  | fund s v t heq =>
    obtain ⟨hst, hc⟩ := fundChannel_ok heq
    subst hc; simp [hst, State.rank]
  | openCh s heq =>
    obtain ⟨hst, hc⟩ := openChannel_ok heq
    subst hc; simp [hst, State.rank]
  | refund t outs heq =>
    obtain ⟨hst, hst'⟩ := refundDeposits_ok heq
    simp [hst, hst', State.rank]
  | submitRev s hsh sec heq =>
    obtain ⟨hst, hc, hsec⟩ := submitRevocation_ok heq
    subst hc; simp [hst, State.rank]
  | initiate s n a b t sA sB outs heq =>
    obtain ⟨hst, hdisj⟩ := initiateDispute_ok heq
    rcases hdisj with h2 | h2 <;> simp [hst, h2, State.rank]
  | challenge s n a b t sA sB heq =>
    obtain ⟨hst, hc, hp, hn⟩ := challengeDispute_ok heq
    subst hc; simp [hst, State.rank]
  | breach s sec outs heq =>
    obtain ⟨hst, hc, houts⟩ := proveRevocationBreach_ok heq
    subst hc; simp [hst, State.rank]
  | finalize t outs heq =>
    obtain ⟨hst, hst'⟩ := finalizeDispute_ok heq
    simp [hst, hst', State.rank]
  | coopClose s a b sA sB outs heq =>
    obtain ⟨hst, hst'⟩ := cooperativeClose_ok heq
    simp [hst, hst', State.rank]

/-- Witness for C8: funding `c9start` is a step, and it never moves the
state backwards nor leaves CLOSED. -/
theorem channelState_monotone_witness :
    c9start.channelState.rank ≤
      ({ c9start with depositA := 6, channelBalance := 6 } : Channel).channelState.rank ∧
    c9start.channelState ≠ .CLOSED :=
  channelState_monotone c9start { c9start with depositA := 6, channelBalance := 6 }
    (.fund c9start { c9start with depositA := 6, channelBalance := 6 } 1 6 10 rfl)

/-- C9: starting from a freshly constructed channel, after any sequence of
successful `fundChannel` calls the two recorded deposits sum to the channel
balance. -/
theorem fund_sequence_deposit_sum (a pA pB fd dp t0 : Nat)
    (ops : List (Nat × Nat × Nat)) (c0 c' : Channel)
    (h0 : mkChannel a pA pB fd dp t0 = .ok c0)
    (h : fundMany c0 ops = .ok c') :
    c'.depositA + c'.depositB = c'.channelBalance := by
  obtain ⟨hA, hB, hbal⟩ := mkChannel_ok h0
  exact fundMany_preserves_sum (by rw [hA, hB, hbal]) h

/-- Witness for C9: parties 1 and 2 deposit 6 and 5; the deposits sum to the
balance 11. -/
theorem fund_sequence_deposit_sum_witness :
    c9final.depositA + c9final.depositB = c9final.channelBalance :=
  fund_sequence_deposit_sum 10 1 2 100 50 0 [(1, 6, 10), (2, 5, 20)]
    c9start c9final rfl rfl

/-- C10 counterexample: a secret was generated for nonce 5 and the first
reveal succeeds, but the second reveal on the *same* nonce throws
"No secret found" (the first reveal deleted the secret from the held map),
refuting "the second reveal does not fail and returns the identical
value". -/
theorem revealSecret_twice_fails :
    c10manager.revealSecret 5 =
      .ok (c10secret,
        { seed := Word.raw 7, secrets := [],
          revealedSecrets := [(5, c10secret)] }) ∧
    RevocationKeyManager.revealSecret
      { seed := Word.raw 7, secrets := [], revealedSecrets := [(5, c10secret)] } 5 =
      .error "No secret found for nonce" := by
  exact ⟨rfl, rfl⟩

/-- C10 amended: `revealSecret` fails with the not-found error exactly when
no secret is currently *held* for the nonce; a successful reveal returns the
held secret and moves it out of the held map, so a second reveal on the same
nonce fails rather than returning the same value. -/
theorem revealSecret_spec (m : RevocationKeyManager) (n : Nat) (s : Word) :
    (assocGet m.secrets n = some s →
      m.revealSecret n =
        .ok (s, { m with
                  revealedSecrets := assocSet m.revealedSecrets n s,
                  secrets := assocRemove m.secrets n }) ∧
      ∀ w m', m.revealSecret n = .ok (w, m') →
        m'.revealSecret n = .error "No secret found for nonce") ∧
    (assocGet m.secrets n = none →
      m.revealSecret n = .error "No secret found for nonce") := by
  constructor
  · intro hget
    constructor
    · simp [RevocationKeyManager.revealSecret, hget]
    · intro w m' h
      simp only [RevocationKeyManager.revealSecret, hget, Except.ok.injEq,
        Prod.mk.injEq] at h
      rw [← h.2]
      simp [RevocationKeyManager.revealSecret, assocGet_assocRemove]
  · intro hget
    simp [RevocationKeyManager.revealSecret, hget]

/-- Witness for the amended C10: evaluated on `c10manager` at nonce 5: the
held secret is returned once and the second reveal fails; nonce 6 was never
generated and fails immediately. -/
theorem revealSecret_spec_witness :
    (c10manager.revealSecret 5 =
      .ok (c10secret,
        { c10manager with
          revealedSecrets := assocSet c10manager.revealedSecrets 5 c10secret,
          secrets := assocRemove c10manager.secrets 5 }) ∧
      ∀ w m', c10manager.revealSecret 5 = .ok (w, m') →
        m'.revealSecret 5 = .error "No secret found for nonce") ∧
    c10manager.revealSecret 6 = .error "No secret found for nonce" :=
  ⟨(revealSecret_spec c10manager 5 c10secret).1 rfl,
   (revealSecret_spec c10manager 6 c10secret).2 rfl⟩

end ContentSwap
